import Mathlib

/-!
Shallow embedding of the blendshape rule and combination engine of
`src/hair_qc_tool/utils/rules_utils.py`.

Modelling conventions:
* Python `dict`s (insertion-ordered, unique keys) are modelled as association
  lists `List (String × β)`; `dictGet` reads the first matching key and
  `dictSet` updates the first matching key in place (preserving its position,
  as CPython does) or appends a fresh key at the end.
* Python `float` weights are modelled as exact rationals `ℚ`; numeric text in
  violation messages and rule ids uses `ℚ`'s canonical `toString` where the
  source uses Python float formatting.
* Fallible deserialization (`BlendshapeRule.from_dict`, which can raise
  `KeyError` / `ValueError` / `TypeError`) is modelled with `Except String`.
-/

/-- Python dict lookup `d.get(k)` over an insertion-ordered association list:
returns the first value stored under key `k`. -/
def dictGet {β : Type} : List (String × β) → String → Option β
  | [], _ => none
  | (k', v) :: rest, k => if k = k' then some v else dictGet rest k

/-- Python dict assignment `d[k] = v`: replaces the value at the first
occurrence of `k` keeping its position, or appends `(k, v)` if absent. -/
def dictSet {β : Type} : List (String × β) → String → β → List (String × β)
  | [], k, v => [(k, v)]
  | (k', v') :: rest, k, v =>
      if k = k' then (k, v) :: rest else (k', v') :: dictSet rest k v

/-- An active combination `{module: {blendshape: weight}}`
(`active_blendshapes` in the source). -/
abbrev ActiveCombination := List (String × List (String × ℚ))

/-- Weight lookup `active.get(module, {}).get(blendshape, 0.0)` used throughout
`rules_utils.py`: an absent module or blendshape counts as weight 0. -/
def comboGet (c : ActiveCombination) (m b : String) : ℚ :=
  ((dictGet c m).bind (fun inner => dictGet inner b)).getD 0

/-- Write `c[m][b] = v`, creating the module entry first when absent
(`if module not in c: c[module] = {}` followed by `c[module][b] = v`). -/
def comboSet (c : ActiveCombination) (m b : String) (v : ℚ) : ActiveCombination :=
  dictSet c m (dictSet ((dictGet c m).getD []) b v)

/-- `ConstraintType` enum of `rules_utils.py` (lines 14-18). -/
inductive ConstraintType where
  | EXCLUSION
  | WEIGHT_LIMIT
  | DEPENDENCY
deriving DecidableEq

/-- The string stored in the `value` of each `ConstraintType` member. -/
def ConstraintType.value : ConstraintType → String
  | .EXCLUSION => "exclusion"
  | .WEIGHT_LIMIT => "weight_limit"
  | .DEPENDENCY => "dependency"

/-- `ConstraintType(tag)` value lookup; raises `ValueError` (modelled as
`Except.error`) when the tag is not one of the three recognized strings. -/
def ConstraintType.ofValue (s : String) : Except String ConstraintType :=
  if s = "exclusion" then .ok .EXCLUSION
  else if s = "weight_limit" then .ok .WEIGHT_LIMIT
  else if s = "dependency" then .ok .DEPENDENCY
  else .error ("ValueError: " ++ s ++ " is not a valid ConstraintType")

/-- `BlendshapeRule` dataclass (lines 21-31). -/
structure BlendshapeRule where
  rule_id : String
  rule_type : ConstraintType
  source_module : String
  source_blendshape : String
  target_module : String
  target_blendshape : String
  constraint_value : ℚ := 1
  description : String := ""
deriving DecidableEq

/-- Serialized form of one rule: the dict produced by `BlendshapeRule.to_dict`
and consumed by `BlendshapeRule.from_dict`. A `none` field models an absent
key. (This restricts the untyped Python dict to the recognized keys with
well-typed values; the failure modes of `from_dict` representable here are
exactly an unrecognized kind tag and a missing field.) -/
structure RuleData where
  rule_id : Option String := none
  rule_type : Option String := none
  source_module : Option String := none
  source_blendshape : Option String := none
  target_module : Option String := none
  target_blendshape : Option String := none
  constraint_value : Option ℚ := none
  description : Option String := none
deriving DecidableEq

/-- `BlendshapeRule.to_dict` (lines 33-37): `asdict` plus the enum replaced by
its string value. -/
def BlendshapeRule.to_dict (r : BlendshapeRule) : RuleData :=
  { rule_id := some r.rule_id
    rule_type := some r.rule_type.value
    source_module := some r.source_module
    source_blendshape := some r.source_blendshape
    target_module := some r.target_module
    target_blendshape := some r.target_blendshape
    constraint_value := some r.constraint_value
    description := some r.description }

/-- Absent required field: `data[...]` raises `KeyError`, or `cls(**data)`
raises `TypeError` for a missing required dataclass argument. -/
def requireField {α : Type} (name : String) : Option α → Except String α
  | some a => .ok a
  | none => .error ("missing required field " ++ name)

/-- `BlendshapeRule.from_dict` (lines 39-44): parses the kind tag with
`ConstraintType(data[...])`, then builds the dataclass; `constraint_value`
and `description` fall back to their dataclass defaults `1.0` and `""`. -/
def BlendshapeRule.from_dict (data : RuleData) : Except String BlendshapeRule := do
  let tag ← requireField "rule_type" data.rule_type
  let rt ← ConstraintType.ofValue tag
  let rid ← requireField "rule_id" data.rule_id
  let sm ← requireField "source_module" data.source_module
  let sb ← requireField "source_blendshape" data.source_blendshape
  let tm ← requireField "target_module" data.target_module
  let tb ← requireField "target_blendshape" data.target_blendshape
  .ok { rule_id := rid
        rule_type := rt
        source_module := sm
        source_blendshape := sb
        target_module := tm
        target_blendshape := tb
        constraint_value := data.constraint_value.getD 1
        description := data.description.getD "" }

/-- `BlendshapeRulesManager` (lines 47-52): the rule store. -/
structure BlendshapeRulesManager where
  rules : List (String × BlendshapeRule)
  internal_exclusions : List (String × List String)
deriving DecidableEq

/-- The fresh store built by `BlendshapeRulesManager.__init__`. -/
def BlendshapeRulesManager.empty : BlendshapeRulesManager :=
  { rules := [], internal_exclusions := [] }

/-- The values view `self.rules.values()` in insertion order. -/
def BlendshapeRulesManager.ruleValues (self : BlendshapeRulesManager) : List BlendshapeRule :=
  self.rules.map Prod.snd

/-- `add_rule` (lines 54-61): `self.rules[rule.rule_id] = rule`; the
`try/except` around a plain dict assignment cannot fire, so the call returns
`True`. Returns the updated store together with the boolean. -/
def BlendshapeRulesManager.add_rule (self : BlendshapeRulesManager) (rule : BlendshapeRule) :
    BlendshapeRulesManager × Bool :=
  ({ self with rules := dictSet self.rules rule.rule_id rule }, true)

/-- `create_exclusion_rule` (lines 95-113). Returns the updated store and the
created rule. -/
def BlendshapeRulesManager.create_exclusion_rule (self : BlendshapeRulesManager)
    (source_module source_blendshape target_module target_blendshape : String)
    (description : String) : BlendshapeRulesManager × BlendshapeRule :=
  let rule_id := source_module ++ "." ++ source_blendshape ++ "_X_" ++
    target_module ++ "." ++ target_blendshape
  let rule : BlendshapeRule :=
    { rule_id := rule_id
      rule_type := ConstraintType.EXCLUSION
      source_module := source_module
      source_blendshape := source_blendshape
      target_module := target_module
      target_blendshape := target_blendshape
      constraint_value := 0
      description := if description = "" then
          "Exclude " ++ source_module ++ "." ++ source_blendshape ++ " with " ++
            target_module ++ "." ++ target_blendshape
        else description }
  ((self.add_rule rule).1, rule)

/-- `create_weight_limit_rule` (lines 115-133); note the id embeds
`max_weight` (`f"..._W_..._{max_weight}"`). -/
def BlendshapeRulesManager.create_weight_limit_rule (self : BlendshapeRulesManager)
    (source_module source_blendshape target_module target_blendshape : String)
    (max_weight : ℚ) (description : String) : BlendshapeRulesManager × BlendshapeRule :=
  let rule_id := source_module ++ "." ++ source_blendshape ++ "_W_" ++
    target_module ++ "." ++ target_blendshape ++ "_" ++ toString max_weight
  let rule : BlendshapeRule :=
    { rule_id := rule_id
      rule_type := ConstraintType.WEIGHT_LIMIT
      source_module := source_module
      source_blendshape := source_blendshape
      target_module := target_module
      target_blendshape := target_blendshape
      constraint_value := max_weight
      description := if description = "" then
          "Limit " ++ target_module ++ "." ++ target_blendshape ++ " to " ++
            toString max_weight ++ " when " ++ source_module ++ "." ++
            source_blendshape ++ " active"
        else description }
  ((self.add_rule rule).1, rule)

/-- `create_dependency_rule` (lines 135-153). -/
def BlendshapeRulesManager.create_dependency_rule (self : BlendshapeRulesManager)
    (source_module source_blendshape target_module target_blendshape : String)
    (strength : ℚ) (description : String) : BlendshapeRulesManager × BlendshapeRule :=
  let rule_id := source_module ++ "." ++ source_blendshape ++ "_D_" ++
    target_module ++ "." ++ target_blendshape
  let rule : BlendshapeRule :=
    { rule_id := rule_id
      rule_type := ConstraintType.DEPENDENCY
      source_module := source_module
      source_blendshape := source_blendshape
      target_module := target_module
      target_blendshape := target_blendshape
      constraint_value := strength
      description := if description = "" then
          source_module ++ "." ++ source_blendshape ++ " triggers " ++
            target_module ++ "." ++ target_blendshape
        else description }
  ((self.add_rule rule).1, rule)

/-- `get_exclusion_rules` (lines 83-85). -/
def BlendshapeRulesManager.get_exclusion_rules (self : BlendshapeRulesManager) :
    List BlendshapeRule :=
  self.ruleValues.filter (fun r => decide (r.rule_type = ConstraintType.EXCLUSION))

/-- `get_weight_limit_rules` (lines 87-89). -/
def BlendshapeRulesManager.get_weight_limit_rules (self : BlendshapeRulesManager) :
    List BlendshapeRule :=
  self.ruleValues.filter (fun r => decide (r.rule_type = ConstraintType.WEIGHT_LIMIT))

/-- `get_dependency_rules` (lines 91-93). -/
def BlendshapeRulesManager.get_dependency_rules (self : BlendshapeRulesManager) :
    List BlendshapeRule :=
  self.ruleValues.filter (fun r => decide (r.rule_type = ConstraintType.DEPENDENCY))

/-- The violation message appended for an exclusion rule (line 181). -/
def exclusionMsg (r : BlendshapeRule) : String :=
  "Exclusion violation: " ++ r.source_module ++ "." ++ r.source_blendshape ++
    " cannot be used with " ++ r.target_module ++ "." ++ r.target_blendshape

/-- The violation message appended for a weight limit rule (line 189). -/
def weightLimitMsg (r : BlendshapeRule) (target_weight : ℚ) : String :=
  "Weight limit violation: " ++ r.target_module ++ "." ++ r.target_blendshape ++
    " weight " ++ toString target_weight ++ " exceeds limit " ++
    toString r.constraint_value ++ " when " ++ r.source_module ++ "." ++
    r.source_blendshape ++ " is active"

/-- The violation message appended for an internal exclusion pair (line 200). -/
def internalMsg (module bs1 bs2 : String) : String :=
  "Internal exclusion violation in " ++ module ++ ": " ++ bs1 ++
    " cannot be used with " ++ bs2

/-- Exclusion section of `is_combination_valid` (lines 176-181): one message
per exclusion rule whose source and target weights are both positive. -/
def exclusionViolationList (self : BlendshapeRulesManager) (active : ActiveCombination) :
    List String :=
  self.get_exclusion_rules.filterMap (fun r =>
    if 0 < comboGet active r.source_module r.source_blendshape ∧
        0 < comboGet active r.target_module r.target_blendshape
    then some (exclusionMsg r) else none)

/-- Weight limit section of `is_combination_valid` (lines 184-189). -/
def weightLimitViolationList (self : BlendshapeRulesManager) (active : ActiveCombination) :
    List String :=
  self.get_weight_limit_rules.filterMap (fun r =>
    if 0 < comboGet active r.source_module r.source_blendshape ∧
        r.constraint_value < comboGet active r.target_module r.target_blendshape
    then some (weightLimitMsg r (comboGet active r.target_module r.target_blendshape))
    else none)

/-- The inner pair scan of the internal exclusion check (lines 197-200):
`for i, bs1 in enumerate(active): for bs2 in active[i+1:]: ...`. -/
def internalPairViolationList (module : String) (excl : List String) :
    List String → List String
  | [] => []
  | bs1 :: rest =>
      (rest.filter (fun bs2 => excl.contains bs1 && excl.contains bs2)).map
        (fun bs2 => internalMsg module bs1 bs2) ++
      internalPairViolationList module excl rest

/-- One entry of the internal exclusion check (lines 192-200): skipped when the
module is absent from the combination, otherwise the pair scan runs over the
blendshapes of that module with weight above 0, in insertion order. -/
def internalEntryViolations (active : ActiveCombination) (module : String)
    (excl : List String) : List String :=
  match dictGet active module with
  | none => []
  | some inner =>
      internalPairViolationList module excl
        ((inner.filter (fun p => decide (0 < p.2))).map Prod.fst)

/-- Internal exclusion section of `is_combination_valid` (lines 191-200). -/
def internalViolationList (self : BlendshapeRulesManager) (active : ActiveCombination) :
    List String :=
  self.internal_exclusions.flatMap (fun p => internalEntryViolations active p.1 p.2)

/-- `is_combination_valid` (lines 163-202): returns
`(len(violations) == 0, violations)` with the three sections appended in
source order. -/
def BlendshapeRulesManager.is_combination_valid (self : BlendshapeRulesManager)
    (active : ActiveCombination) : Bool × List String :=
  let violations := exclusionViolationList self active ++
    weightLimitViolationList self active ++ internalViolationList self active
  (violations.isEmpty, violations)

/-- One iteration of the weight limit loop of
`apply_constraints_to_combination` (lines 217-225). -/
def clampStep (active : ActiveCombination) (r : BlendshapeRule) : ActiveCombination :=
  if 0 < comboGet active r.source_module r.source_blendshape then
    match dictGet active r.target_module with
    | none => active
    | some inner =>
      match dictGet inner r.target_blendshape with
      | none => active
      | some current =>
          if r.constraint_value < current then
            comboSet active r.target_module r.target_blendshape r.constraint_value
          else active
  else active

/-- One iteration of the dependency loop of `apply_constraints_to_combination`
(lines 228-238): when the source weight is positive the target is set to
`source_weight * constraint_value`, creating its module entry if absent. -/
def depStep (active : ActiveCombination) (r : BlendshapeRule) : ActiveCombination :=
  let sw := comboGet active r.source_module r.source_blendshape
  if 0 < sw then
    comboSet active r.target_module r.target_blendshape (sw * r.constraint_value)
  else active

/-- `apply_constraints_to_combination` (lines 204-240): the returned content is
the weight limit pass followed by the dependency pass. (The function starts
from `active_blendshapes.copy()`, a shallow copy; the caller-visible effect on
the input is modelled separately by `applyInputAfter`.) -/
def BlendshapeRulesManager.apply_constraints_to_combination (self : BlendshapeRulesManager)
    (active : ActiveCombination) : ActiveCombination :=
  self.get_dependency_rules.foldl depStep
    (self.get_weight_limit_rules.foldl clampStep active)

/-- Content of the caller's input dict after `apply_constraints_to_combination`
returns. `constrained = active_blendshapes.copy()` is a shallow copy: each
module key of the input keeps pointing at the very inner dict the input holds,
and the loops never rebind an existing module key of `constrained` (fresh inner
dicts are created only for modules absent from it), so after the call the
input still has exactly its original module keys and each of its inner dicts
carries the final content computed for that module. -/
def applyInputAfter (self : BlendshapeRulesManager) (active : ActiveCombination) :
    ActiveCombination :=
  active.map (fun p =>
    (p.1, (dictGet (self.apply_constraints_to_combination active) p.1).getD p.2))

/-- Serialized form of the whole store: the dict produced by
`BlendshapeRulesManager.to_dict` (lines 242-247). -/
structure StoreData where
  rules : List (String × RuleData)
  internal_exclusions : List (String × List String)
deriving DecidableEq

/-- `BlendshapeRulesManager.to_dict` (lines 242-247). -/
def BlendshapeRulesManager.to_dict (self : BlendshapeRulesManager) : StoreData :=
  { rules := self.rules.map (fun p => (p.1, p.2.to_dict))
    internal_exclusions := self.internal_exclusions }

/-- `BlendshapeRulesManager.from_dict` (lines 249-259): resets `rules`, takes
the internal exclusions wholesale, then loads each rule entry in order; an
entry whose `BlendshapeRule.from_dict` fails is logged and skipped. The
previous state of the store is discarded entirely, so this is a function of
the data alone. -/
def BlendshapeRulesManager.from_dict (data : StoreData) : BlendshapeRulesManager :=
  { rules := data.rules.foldl (fun acc p =>
      match BlendshapeRule.from_dict p.2 with
      | .ok rule => dictSet acc p.1 rule
      | .error _ => acc) []
    internal_exclusions := data.internal_exclusions }

/-- `BlendshapeRulesManager.from_json` (lines 265-271). The stdlib call
`json.loads` is external; its outcome on the input string is passed as
`parsed`, where `none` models a `json.JSONDecodeError` (the text is not valid
JSON). The handler only prints, so on `none` the store is returned untouched;
`from_dict` runs only on a successful parse. -/
def BlendshapeRulesManager.from_json (self : BlendshapeRulesManager)
    (parsed : Option StoreData) : BlendshapeRulesManager :=
  match parsed with
  | some data => BlendshapeRulesManager.from_dict data
  | none => self

/-- The k-element combinations of a list, in the order produced by
`itertools.combinations(range(len(l)), k)` mapped through `l` (lexicographic
by position, lines 313-315). -/
def combinationsList {α : Type} : List α → Nat → List (List α)
  | _, 0 => [[]]
  | [], _ + 1 => []
  | x :: xs, k + 1 =>
      (combinationsList xs k).map (fun c => x :: c) ++ combinationsList xs (k + 1)

/-- Building one candidate combination at full weight (lines 320-325). -/
def buildCombination (selected : List (String × String)) : ActiveCombination :=
  selected.foldl (fun c p => comboSet c p.1 p.2 1) []

/-- The inner candidate loop of `generate_combinations` (lines 315-334): stop
as soon as `max_combinations` results are collected (`combination_count` is
exactly the length of the accumulator), validate each candidate, and append
its constraint-applied form when valid. -/
def generateFromCandidates (self : BlendshapeRulesManager)
    (cands : List (List (String × String))) (max_combinations : Nat)
    (acc : List ActiveCombination) : List ActiveCombination :=
  match cands with
  | [] => acc
  | cand :: rest =>
      if max_combinations ≤ acc.length then acc
      else
        let combination := buildCombination cand
        if (self.is_combination_valid combination).1 then
          generateFromCandidates self rest max_combinations
            (acc ++ [self.apply_constraints_to_combination combination])
        else
          generateFromCandidates self rest max_combinations acc

/-- The outer size loop of `generate_combinations` (lines 309-334):
`num_active` ranges over the given sizes, with the same early stop. -/
def generateBySizes (self : BlendshapeRulesManager)
    (all_blendshapes : List (String × String)) (sizes : List Nat)
    (max_combinations : Nat) (acc : List ActiveCombination) : List ActiveCombination :=
  match sizes with
  | [] => acc
  | k :: rest =>
      if max_combinations ≤ acc.length then acc
      else
        generateBySizes self all_blendshapes rest max_combinations
          (generateFromCandidates self (combinationsList all_blendshapes k)
            max_combinations acc)

/-- `CombinationGenerator.generate_combinations` (lines 280-336); the generator
object only carries its rules manager, passed here as `self`. The catalog is
flattened in order (lines 300-303) and `num_active` runs over
`range(1, min(len(all_blendshapes) + 1, 6))`. -/
def CombinationGenerator.generate_combinations (self : BlendshapeRulesManager)
    (module_blendshapes : List (String × List String)) (max_combinations : Nat) :
    List ActiveCombination :=
  let all_blendshapes := module_blendshapes.flatMap (fun p => p.2.map (fun b => (p.1, b)))
  generateBySizes self all_blendshapes
    (List.range' 1 (min all_blendshapes.length 5)) max_combinations []

/-! ## Derived notions used by the statements -/

/-- The store contains no dependency rule. -/
def noDependencyRules (st : BlendshapeRulesManager) : Prop :=
  ∀ r ∈ st.ruleValues, r.rule_type ≠ ConstraintType.DEPENDENCY

instance (st : BlendshapeRulesManager) : Decidable (noDependencyRules st) := by
  unfold noDependencyRules; infer_instance

/-- The blendshape names of a module entry with weight above 0, in insertion
order (`active_in_module`, line 194). -/
def activeNames (inner : List (String × ℚ)) : List String :=
  (inner.filter (fun p => decide (0 < p.2))).map Prod.fst

/-- `needle` occurs as a contiguous substring of `hay`. -/
def strMentions (hay needle : String) : Prop :=
  needle.data <:+: hay.data

/-- Pointwise order on an inner weight dict: same keys at the same positions,
each weight at most the corresponding one. -/
def innerLE (i' i : List (String × ℚ)) : Prop :=
  List.Forall₂ (fun p q => p.1 = q.1 ∧ p.2 ≤ q.2) i' i

/-- Pointwise order on combinations: same module keys at the same positions,
inner dicts related by `innerLE`. -/
def comboLE (c' c : ActiveCombination) : Prop :=
  List.Forall₂ (fun P Q => P.1 = Q.1 ∧ innerLE P.2 Q.2) c' c

/-- The guard under which a weight limit iteration rewrites the combination
(source weight positive, target entry present, current target weight above the
limit). -/
def clampGuard (s : ActiveCombination) (r : BlendshapeRule) : Prop :=
  0 < comboGet s r.source_module r.source_blendshape ∧
    ∃ i cur, dictGet s r.target_module = some i ∧
      dictGet i r.target_blendshape = some cur ∧ r.constraint_value < cur

/-! ## Concrete fixtures for witnesses and counterexamples -/

/-- Store of the weight limit scenario: `(crown, bigCurl) → (crown, volume)`,
limit `0.5`. -/
def crownStore : BlendshapeRulesManager :=
  (BlendshapeRulesManager.empty.create_weight_limit_rule
    "crown" "bigCurl" "crown" "volume" (1/2) "").1

/-- Combination `{"crown": {"bigCurl": 1.0, "volume": 0.9}}`. -/
def crownCombo : ActiveCombination := [("crown", [("bigCurl", 1), ("volume", 9/10)])]

/-- Store of the dependency scenario: `(tail, swish) → (tail, flip)`,
strength `0.3`. -/
def tailStore : BlendshapeRulesManager :=
  (BlendshapeRulesManager.empty.create_dependency_rule
    "tail" "swish" "tail" "flip" (3/10) "").1

/-- Combination `{"tail": {"swish": 0.8}}` (no `flip` key). -/
def tailCombo : ActiveCombination := [("tail", [("swish", 8/10)])]

/-- The dependency rule held by `tailStore`. -/
def tailRule : BlendshapeRule :=
  (BlendshapeRulesManager.empty.create_dependency_rule
    "tail" "swish" "tail" "flip" (3/10) "").2

/-- Store of the exclusion scenario: `(scalp, smile) × (scalp, frown)`. -/
def scalpStore : BlendshapeRulesManager :=
  (BlendshapeRulesManager.empty.create_exclusion_rule "scalp" "smile" "scalp" "frown" "").1

/-- Combination `{"scalp": {"smile": 1.0, "frown": 1.0}}`. -/
def scalpCombo : ActiveCombination := [("scalp", [("smile", 1), ("frown", 1)])]

/-- Store with an exclusion `(m, a) × (m, b)` and a dependency
`(m, a) → (m, b)` of strength 1: the dependency re-activates a blendshape the
exclusion forbids. -/
def exclDepStore : BlendshapeRulesManager :=
  ((BlendshapeRulesManager.empty.create_exclusion_rule "m" "a" "m" "b" "").1.create_dependency_rule
    "m" "a" "m" "b" 1 "").1

/-- Store with the chained dependencies `(m, b) → (m, c)` (inserted first) and
`(m, a) → (m, b)`. -/
def chainStore : BlendshapeRulesManager :=
  ((BlendshapeRulesManager.empty.create_dependency_rule "m" "b" "m" "c" 1 "").1.create_dependency_rule
    "m" "a" "m" "b" (1/2) "").1

/-- Store with a weight limit `(m, x) → (m, s)` of limit `0.5` and a
dependency `(m, s) → (m, t)` of strength 1: the limit clamps the dependency's
source before the dependency fires. -/
def clampSourceStore : BlendshapeRulesManager :=
  ((BlendshapeRulesManager.empty.create_weight_limit_rule "m" "x" "m" "s" (1/2) "").1.create_dependency_rule
    "m" "s" "m" "t" 1 "").1

/-- The dependency rule held by `clampSourceStore`. -/
def clampSourceDepRule : BlendshapeRule :=
  ((BlendshapeRulesManager.empty.create_weight_limit_rule "m" "x" "m" "s" (1/2) "").1.create_dependency_rule
    "m" "s" "m" "t" 1 "").2

/-- Combination `{"m": {"x": 1.0, "s": 1.0}}`. -/
def clampSourceCombo : ActiveCombination := [("m", [("x", 1), ("s", 1)])]

/-- First weight limit creation on the same pairs, limit `0.5`. -/
def wlCreateOnce : BlendshapeRulesManager × BlendshapeRule :=
  BlendshapeRulesManager.empty.create_weight_limit_rule "m" "a" "m" "b" (1/2) ""

/-- Second weight limit creation on the same pairs, limit `0.7`. -/
def wlCreateTwice : BlendshapeRulesManager × BlendshapeRule :=
  wlCreateOnce.1.create_weight_limit_rule "m" "a" "m" "b" (7/10) ""

/-- Serialized store holding one well-formed rule entry, one entry with an
unrecognized kind tag, and one entry missing a required field. -/
def mixedStoreData : StoreData :=
  { rules :=
      [("good", { rule_id := some "good", rule_type := some "exclusion",
                  source_module := some "m", source_blendshape := some "a",
                  target_module := some "m", target_blendshape := some "b",
                  constraint_value := some 0, description := some "" }),
       ("badtag", { rule_id := some "badtag", rule_type := some "mystery",
                    source_module := some "m", source_blendshape := some "a",
                    target_module := some "m", target_blendshape := some "c",
                    constraint_value := some 0, description := some "" }),
       ("missing", { rule_id := some "missing", rule_type := some "dependency",
                     target_module := some "m", target_blendshape := some "d" })]
    internal_exclusions := [("m", ["a", "b"])] }

/-- A combination whose `tail` module has active blendshapes named like the
`crown` internal exclusions. -/
def crownTailCombo : ActiveCombination :=
  [("crown", [("x", 1)]), ("tail", [("a", 1), ("b", 1)])]

/-- The same combination with the `tail` module removed. -/
def crownOnlyCombo : ActiveCombination := [("crown", [("x", 1)])]

/-! ## Dictionary lemmas -/

theorem dictGet_dictSet_self {β : Type} (l : List (String × β)) (k : String) (v : β) :
    dictGet (dictSet l k v) k = some v := by
  induction l with
  | nil => simp [dictSet, dictGet]
  | cons hd tl ih =>
    obtain ⟨k', v'⟩ := hd
    by_cases h : k = k'
    · simp [dictSet, dictGet, h]
    · simp [dictSet, dictGet, h, ih]

theorem dictGet_dictSet_ne {β : Type} (l : List (String × β)) (k k'' : String) (v : β)
    (h : k'' ≠ k) : dictGet (dictSet l k v) k'' = dictGet l k'' := by
  induction l with
  | nil => simp [dictSet, dictGet, h]
  | cons hd tl ih =>
    obtain ⟨k', v'⟩ := hd
    by_cases hk : k = k'
    · subst hk; simp [dictSet, dictGet, h]
    · by_cases hk'' : k'' = k'
      · simp [dictSet, dictGet, hk, hk'']
      · simp [dictSet, dictGet, hk, hk'', ih]

theorem length_dictSet_of_isSome {β : Type} (l : List (String × β)) (k : String) (v : β)
    (h : (dictGet l k).isSome) : (dictSet l k v).length = l.length := by
  induction l with
  | nil => simp [dictGet] at h
  | cons hd tl ih =>
    obtain ⟨k', v'⟩ := hd
    by_cases hk : k = k'
    · simp [dictSet, hk]
    · simp [dictGet, hk] at h
      simp [dictSet, hk, ih h]

theorem comboGet_comboSet (c : ActiveCombination) (m b : String) (v : ℚ) (m' b' : String) :
    comboGet (comboSet c m b v) m' b' =
      if m' = m ∧ b' = b then v else comboGet c m' b' := by
  by_cases hm : m' = m
  · subst hm
    by_cases hb : b' = b
    · subst hb
      simp [comboGet, comboSet, dictGet_dictSet_self]
    · simp only [comboGet, comboSet, dictGet_dictSet_self, hb, and_false, if_false,
        Option.some_bind]
      rw [dictGet_dictSet_ne _ _ _ _ hb]
      cases hgm : dictGet c m' with
      | none => simp [dictGet]
      | some inner => simp
  · simp only [comboGet, comboSet, hm, false_and, if_false]
    rw [dictGet_dictSet_ne _ _ _ _ hm]

/-! ## C2: Apply and mutation of the input -/

/-- C2: the claim says `apply_constraints_to_combination` does not mutate its
input, but the source copies the input only shallowly (`.copy()`, line 214),
so clamping `crown.volume` from `0.9` down to the limit `0.5` writes through
the shared inner dict: after the call the caller's combination carries
`volume = 0.5`, not its original `0.9`. -/
theorem apply_constraints_mutates_input :
    applyInputAfter crownStore crownCombo =
      [("crown", [("bigCurl", 1), ("volume", 1/2)])] ∧
    applyInputAfter crownStore crownCombo ≠ crownCombo := by decide!

/-! ## C9: rule ids -/

/-- C9: the claim says every creation operation derives the id from
(kind, source, target) only, so re-creating a rule of the same kind between
the same pairs overwrites. `create_weight_limit_rule` embeds `max_weight` in
the id (line 119), so two weight limit rules on the same pairs with different
limits get different ids and are both stored. -/
theorem weight_limit_rule_id_cex :
    wlCreateOnce.2.rule_id ≠ wlCreateTwice.2.rule_id ∧
      wlCreateTwice.1.rules.length = 2 := by decide!

/-- C9 (amended): for exclusion and dependency rules the id is a function of
(kind, source, target) alone, re-creation between the same pairs produces the
same id and silently overwrites the stored rule (the store does not grow and
the id maps to the newest rule), and `add_rule` returns true; for weight limit
rules the id additionally depends on `max_weight`, and the overwrite happens
only when the limits coincide. -/
theorem rule_id_determinism_amended :
    (∀ (st st' : BlendshapeRulesManager) (sm sb tm tb d₁ d₂ : String),
      ((st.create_exclusion_rule sm sb tm tb d₁).2).rule_id =
        ((st'.create_exclusion_rule sm sb tm tb d₂).2).rule_id) ∧
    (∀ (st st' : BlendshapeRulesManager) (sm sb tm tb d₁ d₂ : String) (s₁ s₂ : ℚ),
      ((st.create_dependency_rule sm sb tm tb s₁ d₁).2).rule_id =
        ((st'.create_dependency_rule sm sb tm tb s₂ d₂).2).rule_id) ∧
    (∀ (st st' : BlendshapeRulesManager) (sm sb tm tb d₁ d₂ : String) (w : ℚ),
      ((st.create_weight_limit_rule sm sb tm tb w d₁).2).rule_id =
        ((st'.create_weight_limit_rule sm sb tm tb w d₂).2).rule_id) ∧
    (∀ (st : BlendshapeRulesManager) (r : BlendshapeRule), (st.add_rule r).2 = true) ∧
    (∀ (st : BlendshapeRulesManager) (sm sb tm tb d₁ d₂ : String),
      (((st.create_exclusion_rule sm sb tm tb d₁).1.create_exclusion_rule
          sm sb tm tb d₂).1).rules.length =
        ((st.create_exclusion_rule sm sb tm tb d₁).1).rules.length ∧
      dictGet (((st.create_exclusion_rule sm sb tm tb d₁).1.create_exclusion_rule
          sm sb tm tb d₂).1).rules ((st.create_exclusion_rule sm sb tm tb d₁).2).rule_id =
        some ((st.create_exclusion_rule sm sb tm tb d₁).1.create_exclusion_rule
          sm sb tm tb d₂).2) ∧
    (∀ (st : BlendshapeRulesManager) (sm sb tm tb d₁ d₂ : String) (s₁ s₂ : ℚ),
      (((st.create_dependency_rule sm sb tm tb s₁ d₁).1.create_dependency_rule
          sm sb tm tb s₂ d₂).1).rules.length =
        ((st.create_dependency_rule sm sb tm tb s₁ d₁).1).rules.length) := by
  refine ⟨fun _ _ _ _ _ _ _ _ => rfl, fun _ _ _ _ _ _ _ _ _ _ => rfl,
    fun _ _ _ _ _ _ _ _ _ => rfl, fun _ _ => rfl, fun st sm sb tm tb d₁ d₂ => ?_,
    fun st sm sb tm tb d₁ d₂ s₁ s₂ => ?_⟩
  · simp only [BlendshapeRulesManager.create_exclusion_rule, BlendshapeRulesManager.add_rule]
    constructor
    · exact length_dictSet_of_isSome _ _ _ (by rw [dictGet_dictSet_self]; rfl)
    · exact dictGet_dictSet_self _ _ _
  · simp only [BlendshapeRulesManager.create_dependency_rule, BlendshapeRulesManager.add_rule]
    exact length_dictSet_of_isSome _ _ _ (by rw [dictGet_dictSet_self]; rfl)

/-! ## C10: from_json on invalid JSON -/

/-- C10: when the input string is not valid JSON, `json.loads` raises
`JSONDecodeError` before `from_dict` runs; the handler only logs, so the
store's rules and internal exclusions are exactly what they were before the
call. -/
theorem from_json_invalid_leaves_store_unchanged :
    ∀ st : BlendshapeRulesManager,
      (st.from_json none).rules = st.rules ∧
      (st.from_json none).internal_exclusions = st.internal_exclusions :=
  fun _ => ⟨rfl, rfl⟩

/-! ## Serialization lemmas -/

theorem ConstraintType.ofValue_value (t : ConstraintType) :
    ConstraintType.ofValue t.value = .ok t := by
  cases t <;> rfl

theorem BlendshapeRule.from_dict_to_dict (r : BlendshapeRule) :
    BlendshapeRule.from_dict r.to_dict = .ok r := by
  obtain ⟨rid, rt, sm, sb, tm, tb, cv, d⟩ := r
  cases rt <;> rfl

theorem dictSet_eq_append_of_none {β : Type} (l : List (String × β)) (k : String) (v : β)
    (h : dictGet l k = none) : dictSet l k v = l ++ [(k, v)] := by
  induction l with
  | nil => rfl
  | cons hd tl ih =>
    obtain ⟨k', v'⟩ := hd
    by_cases hk : k = k'
    · simp [dictGet, hk] at h
    · simp only [dictGet, hk, if_false, if_neg hk] at h ⊢
      simp [dictSet, hk, ih h]

theorem dictGet_append_sngl_ne {β : Type} (acc : List (String × β)) (k x : String) (v : β)
    (h : x ≠ k) : dictGet (acc ++ [(k, v)]) x = dictGet acc x := by
  induction acc with
  | nil => simp [dictGet, h]
  | cons hd tl ih =>
    obtain ⟨k', v'⟩ := hd
    by_cases hx : x = k'
    · simp [dictGet, hx]
    · simp [dictGet, hx, ih]

/-- The rule-loading loop of `BlendshapeRulesManager.from_dict`: when the rule
ids are pairwise distinct and none is already in the accumulator, the loop
appends exactly the successfully parsed entries, in order. -/
theorem foldl_loadRules_eq (l : List (String × RuleData)) (acc : List (String × BlendshapeRule))
    (hnd : (l.map Prod.fst).Nodup) (hdisj : ∀ p ∈ l, dictGet acc p.1 = none) :
    l.foldl (fun acc p =>
        match BlendshapeRule.from_dict p.2 with
        | .ok rule => dictSet acc p.1 rule
        | .error _ => acc) acc =
      acc ++ l.filterMap (fun p =>
        match BlendshapeRule.from_dict p.2 with
        | .ok rule => some (p.1, rule)
        | .error _ => none) := by
  induction l generalizing acc with
  | nil => simp
  | cons hd tl ih =>
    obtain ⟨k, rd⟩ := hd
    simp only [List.map_cons, List.nodup_cons] at hnd
    obtain ⟨hk, htl⟩ := hnd
    cases hfd : BlendshapeRule.from_dict rd with
    | ok rule =>
      have hacc : dictGet acc k = none := hdisj (k, rd) (by simp)
      have hstep : dictSet acc k rule = acc ++ [(k, rule)] :=
        dictSet_eq_append_of_none _ _ _ hacc
      simp only [List.foldl_cons, hfd, hstep, List.filterMap_cons]
      rw [ih (acc ++ [(k, rule)]) htl ?_]
      · simp
      · intro p hp
        have hpk : p.1 ≠ k := by
          intro hcontra
          exact hk (hcontra ▸ (List.mem_map_of_mem Prod.fst hp))
        rw [dictGet_append_sngl_ne _ _ _ _ hpk]
        exact hdisj p (List.mem_cons_of_mem _ hp)
    | error e =>
      simp only [List.foldl_cons, hfd, List.filterMap_cons]
      exact ih acc htl (fun p hp => hdisj p (List.mem_cons_of_mem _ hp))

theorem filterMap_some_pair {α β : Type} (l : List (α × β)) :
    l.filterMap (fun p => some (p.1, p.2)) = l := by
  induction l with
  | nil => rfl
  | cons hd tl ih => simp [List.filterMap_cons, ih]

/-! ## C6: degraded loading of malformed rule entries -/

/-- C6: `from_dict` is total (the per-entry `try/except` catches every parse
failure), it loads exactly the well-formed rule entries in order — an entry
with an unrecognized kind tag or a missing required field is skipped — and the
internal exclusions are taken over wholesale. -/
theorem from_dict_skips_malformed_rules :
    ∀ data : StoreData, (data.rules.map Prod.fst).Nodup →
      (BlendshapeRulesManager.from_dict data).rules =
        data.rules.filterMap (fun p =>
          match BlendshapeRule.from_dict p.2 with
          | .ok rule => some (p.1, rule)
          | .error _ => none) ∧
      (BlendshapeRulesManager.from_dict data).internal_exclusions =
        data.internal_exclusions := by
  intro data hnd
  constructor
  · show (data.rules.foldl _ []) = _
    rw [foldl_loadRules_eq data.rules [] hnd (fun p _ => rfl)]
    simp
  · rfl

/-- Witness for C6 at a store holding one well-formed entry, one entry with an
unknown kind tag, and one entry missing its source fields: only the
well-formed rule is loaded, the exclusions survive. -/
theorem from_dict_skips_malformed_rules_witness :
    (mixedStoreData.rules.map Prod.fst).Nodup ∧
    ((BlendshapeRulesManager.from_dict mixedStoreData).rules =
        mixedStoreData.rules.filterMap (fun p =>
          match BlendshapeRule.from_dict p.2 with
          | .ok rule => some (p.1, rule)
          | .error _ => none) ∧
      (BlendshapeRulesManager.from_dict mixedStoreData).internal_exclusions =
        mixedStoreData.internal_exclusions) ∧
    (BlendshapeRulesManager.from_dict mixedStoreData).rules.map Prod.fst = ["good"] :=
  ⟨by decide!, from_dict_skips_malformed_rules mixedStoreData (by decide!), by decide!⟩

/-! ## C5: serialization round trip -/

/-- C5: deserializing a store's own serialized form restores the store
exactly — same rule ids, same field values, same internal exclusion
mappings — for any store whose rule ids are pairwise distinct (which every
store built through `add_rule` is, its rules being a Python dict). -/
theorem store_serialization_round_trip :
    ∀ st : BlendshapeRulesManager, (st.rules.map Prod.fst).Nodup →
      BlendshapeRulesManager.from_dict st.to_dict = st := by
  intro st hnd
  obtain ⟨rules, ie⟩ := st
  simp only [BlendshapeRulesManager.from_dict, BlendshapeRulesManager.to_dict]
  congr 1
  rw [foldl_loadRules_eq _ [] (by simpa using hnd) (fun p _ => rfl)]
  rw [List.filterMap_map]
  have : ∀ p : String × BlendshapeRule,
      (fun p : String × RuleData =>
        match BlendshapeRule.from_dict p.2 with
        | .ok rule => some (p.1, rule)
        | .error _ => none) ((fun p => (p.1, p.2.to_dict)) p) = some (p.1, p.2) := by
    intro p
    simp [BlendshapeRule.from_dict_to_dict]
  calc [] ++ List.filterMap _ rules = List.filterMap (fun p => some (p.1, p.2)) rules := by
        rw [List.nil_append]
        exact List.filterMap_congr (fun p _ => this p)
    _ = rules := filterMap_some_pair rules

/-- Witness for C5 at the two-rule store `clampSourceStore`. -/
theorem store_serialization_round_trip_witness :
    (clampSourceStore.rules.map Prod.fst).Nodup ∧
      BlendshapeRulesManager.from_dict clampSourceStore.to_dict = clampSourceStore :=
  ⟨by decide!, store_serialization_round_trip clampSourceStore (by decide!)⟩

/-! ## C7: exclusion rules under Validate -/

theorem exclusionMsg_mentions_source (r : BlendshapeRule) :
    strMentions (exclusionMsg r) (r.source_module ++ "." ++ r.source_blendshape) := by
  refine ⟨"Exclusion violation: ".data,
    (" cannot be used with " ++ r.target_module ++ "." ++ r.target_blendshape).data, ?_⟩
  simp [exclusionMsg, String.data_append, List.append_assoc]

theorem exclusionMsg_mentions_target (r : BlendshapeRule) :
    strMentions (exclusionMsg r) (r.target_module ++ "." ++ r.target_blendshape) := by
  refine ⟨("Exclusion violation: " ++ r.source_module ++ "." ++ r.source_blendshape ++
    " cannot be used with ").data, [], ?_⟩
  simp [exclusionMsg, String.data_append, List.append_assoc]

theorem mem_exclusionViolationList (st : BlendshapeRulesManager) (c : ActiveCombination)
    (r : BlendshapeRule) (hr : r ∈ st.ruleValues)
    (hty : r.rule_type = ConstraintType.EXCLUSION)
    (hs : 0 < comboGet c r.source_module r.source_blendshape)
    (ht : 0 < comboGet c r.target_module r.target_blendshape) :
    exclusionMsg r ∈ exclusionViolationList st c := by
  unfold exclusionViolationList
  rw [List.mem_filterMap]
  refine ⟨r, ?_, ?_⟩
  · unfold BlendshapeRulesManager.get_exclusion_rules
    rw [List.mem_filter]
    exact ⟨hr, by simp [hty]⟩
  · rw [if_pos ⟨hs, ht⟩]

/-- C7: for every store holding an exclusion rule between two pairs and every
combination in which both pairs are active (weight above 0, absent entries
counting as 0), `is_combination_valid` reports invalid together with a
violation string naming both pairs; at the concrete scalp scenario the result
is exactly `(False, [<the one string naming scalp.smile and scalp.frown>])`. -/
theorem exclusion_rule_invalidates_combination :
    (∀ (st : BlendshapeRulesManager) (c : ActiveCombination) (r : BlendshapeRule),
      r ∈ st.ruleValues → r.rule_type = ConstraintType.EXCLUSION →
      0 < comboGet c r.source_module r.source_blendshape →
      0 < comboGet c r.target_module r.target_blendshape →
      (st.is_combination_valid c).1 = false ∧
        ∃ v ∈ (st.is_combination_valid c).2,
          strMentions v (r.source_module ++ "." ++ r.source_blendshape) ∧
          strMentions v (r.target_module ++ "." ++ r.target_blendshape)) ∧
    scalpStore.is_combination_valid scalpCombo =
      (false, ["Exclusion violation: scalp.smile cannot be used with scalp.frown"]) := by
  constructor
  · intro st c r hr hty hs ht
    have hmsg : exclusionMsg r ∈ exclusionViolationList st c :=
      mem_exclusionViolationList st c r hr hty hs ht
    have hmem : exclusionMsg r ∈ exclusionViolationList st c ++
        weightLimitViolationList st c ++ internalViolationList st c :=
      List.mem_append.mpr (Or.inl (List.mem_append.mpr (Or.inl hmsg)))
    constructor
    · show (exclusionViolationList st c ++ weightLimitViolationList st c ++
        internalViolationList st c).isEmpty = false
      cases hv : (exclusionViolationList st c ++ weightLimitViolationList st c ++
          internalViolationList st c) with
      | nil => rw [hv] at hmem; cases hmem
      | cons hd tl => rfl
    · refine ⟨exclusionMsg r, hmem, ?_, ?_⟩
      · exact exclusionMsg_mentions_source r
      · exact exclusionMsg_mentions_target r
  · decide!

/-- Witness for C7 at the scalp scenario. -/
theorem exclusion_rule_invalidates_combination_witness :
    (scalpStore.is_combination_valid scalpCombo).1 = false ∧
      ∃ v ∈ (scalpStore.is_combination_valid scalpCombo).2,
        strMentions v ("scalp" ++ "." ++ "smile") ∧
        strMentions v ("scalp" ++ "." ++ "frown") :=
  exclusion_rule_invalidates_combination.1 scalpStore scalpCombo
    { rule_id := "scalp.smile_X_scalp.frown"
      rule_type := ConstraintType.EXCLUSION
      source_module := "scalp"
      source_blendshape := "smile"
      target_module := "scalp"
      target_blendshape := "frown"
      constraint_value := 0
      description := "Exclude scalp.smile with scalp.frown" }
    (by decide!) (by decide!) (by decide!) (by decide!)

/-! ## C8: internal exclusions are scoped to their own module -/

theorem internalEntryViolations_none (c : ActiveCombination) (m : String)
    (excl : List String) (hg : dictGet c m = none) :
    internalEntryViolations c m excl = [] := by
  unfold internalEntryViolations
  rw [hg]

theorem internalEntryViolations_some (c : ActiveCombination) (m : String)
    (excl : List String) (inner : List (String × ℚ)) (hg : dictGet c m = some inner) :
    internalEntryViolations c m excl =
      internalPairViolationList m excl
        ((inner.filter (fun p => decide (0 < p.2))).map Prod.fst) := by
  unfold internalEntryViolations
  rw [hg]

theorem internalPairViolationList_eq_nil (m : String) (excl : List String) (l : List String) :
    internalPairViolationList m excl l = [] ↔
      l.countP (fun b => excl.contains b) ≤ 1 := by
  induction l with
  | nil => simp [internalPairViolationList]
  | cons bs1 rest ih =>
    have hstep : internalPairViolationList m excl (bs1 :: rest) =
        (rest.filter (fun bs2 => excl.contains bs1 && excl.contains bs2)).map
          (fun bs2 => internalMsg m bs1 bs2) ++ internalPairViolationList m excl rest := rfl
    rw [hstep, List.countP_cons]
    by_cases hc : excl.contains bs1 = true
    · rw [if_pos hc]
      constructor
      · intro h
        rw [List.append_eq_nil] at h
        obtain ⟨h1, _⟩ := h
        rw [List.map_eq_nil_iff, List.filter_eq_nil_iff] at h1
        have h0 : rest.countP (fun b => excl.contains b) = 0 := by
          rw [List.countP_eq_zero]
          intro b hb
          have hb' := h1 b hb
          rw [hc, Bool.true_and] at hb'
          exact hb'
        omega
      · intro h
        have h0 : rest.countP (fun b => excl.contains b) = 0 := by omega
        have hall := List.countP_eq_zero.mp h0
        rw [List.append_eq_nil]
        refine ⟨?_, ih.mpr (by omega)⟩
        rw [List.map_eq_nil_iff, List.filter_eq_nil_iff]
        intro b hb
        rw [hc, Bool.true_and]
        exact hall b hb
    · rw [if_neg hc]
      have hfilter : rest.filter (fun bs2 => excl.contains bs1 && excl.contains bs2) = [] := by
        rw [List.filter_eq_nil_iff]
        intro b _
        rw [Bool.eq_false_iff.mpr hc, Bool.false_and]
        exact Bool.false_ne_true
      rw [hfilter, List.map_nil, List.nil_append, ih]
      omega

/-- C8: the internal exclusion check reads only the combination entry of the
entry's own module — two combinations agreeing on a module produce the same
violations for any internal exclusion entry of that module (and hence the same
whole internal section when they agree on every listed module) — and an entry
can fire only when at least two blendshapes active inside that very module lie
in its exclusion list. Active blendshapes of other modules, even with
identical names, never trigger it. -/
theorem internal_exclusion_module_scoped :
    (∀ (m : String) (excl : List String) (c₁ c₂ : ActiveCombination),
      dictGet c₁ m = dictGet c₂ m →
      internalEntryViolations c₁ m excl = internalEntryViolations c₂ m excl) ∧
    (∀ (st : BlendshapeRulesManager) (c₁ c₂ : ActiveCombination),
      (∀ p ∈ st.internal_exclusions, dictGet c₁ p.1 = dictGet c₂ p.1) →
      internalViolationList st c₁ = internalViolationList st c₂) ∧
    (∀ (m : String) (excl : List String) (c : ActiveCombination),
      internalEntryViolations c m excl ≠ [] →
      2 ≤ (activeNames ((dictGet c m).getD [])).countP (fun b => excl.contains b)) := by
  have entry : ∀ (m : String) (excl : List String) (c₁ c₂ : ActiveCombination),
      dictGet c₁ m = dictGet c₂ m →
      internalEntryViolations c₁ m excl = internalEntryViolations c₂ m excl := by
    intro m excl c₁ c₂ h
    unfold internalEntryViolations
    rw [h]
  refine ⟨entry, ?_, ?_⟩
  · intro st c₁ c₂ hag
    unfold internalViolationList
    have : ∀ (l : List (String × List String)),
        (∀ p ∈ l, dictGet c₁ p.1 = dictGet c₂ p.1) →
        l.flatMap (fun p => internalEntryViolations c₁ p.1 p.2) =
          l.flatMap (fun p => internalEntryViolations c₂ p.1 p.2) := by
      intro l hl
      induction l with
      | nil => rfl
      | cons hd tl ih =>
        simp only [List.flatMap_cons]
        rw [entry hd.1 hd.2 c₁ c₂ (hl hd (by simp)),
          ih (fun p hp => hl p (List.mem_cons_of_mem _ hp))]
    exact this st.internal_exclusions hag
  · intro m excl c hne
    cases hg : dictGet c m with
    | none => exact absurd (internalEntryViolations_none c m excl hg) hne
    | some inner =>
      rw [internalEntryViolations_some c m excl inner hg] at hne
      show 2 ≤ ((inner.filter (fun p => decide (0 < p.2))).map Prod.fst).countP
        (fun b => excl.contains b)
      by_contra hlt
      have hle : ((inner.filter (fun p => decide (0 < p.2))).map Prod.fst).countP
          (fun b => excl.contains b) ≤ 1 := by omega
      exact hne ((internalPairViolationList_eq_nil m excl _).mpr hle)

/-- Witness for C8: active blendshapes named `a`, `b` in module `tail` do not
trigger the internal exclusion entry of module `crown` listing those very
names: removing the whole `tail` module leaves the entry's violations
unchanged (both empty). -/
theorem internal_exclusion_module_scoped_witness :
    dictGet crownTailCombo "crown" = dictGet crownOnlyCombo "crown" ∧
    internalEntryViolations crownTailCombo "crown" ["a", "b"] =
      internalEntryViolations crownOnlyCombo "crown" ["a", "b"] ∧
    internalEntryViolations crownTailCombo "crown" ["a", "b"] = [] :=
  ⟨by decide!, internal_exclusion_module_scoped.1 "crown" ["a", "b"]
    crownTailCombo crownOnlyCombo (by decide!), by decide!⟩

/-! ## Pointwise order on combinations and the weight limit pass -/

theorem innerLE_refl (i : List (String × ℚ)) : innerLE i i := by
  induction i with
  | nil => exact .nil
  | cons hd tl ih => exact .cons ⟨rfl, le_refl _⟩ ih

theorem comboLE_refl (c : ActiveCombination) : comboLE c c := by
  induction c with
  | nil => exact .nil
  | cons hd tl ih => exact .cons ⟨rfl, innerLE_refl _⟩ ih

theorem innerLE_trans {a b c : List (String × ℚ)} (h₁ : innerLE a b) (h₂ : innerLE b c) :
    innerLE a c := by
  unfold innerLE at *
  induction h₁ generalizing c with
  | nil => cases h₂; exact .nil
  | cons hab htail ih =>
    cases h₂ with
    | cons hbc htail' => exact .cons ⟨hab.1.trans hbc.1, hab.2.trans hbc.2⟩ (ih htail')

theorem comboLE_trans {a b c : ActiveCombination} (h₁ : comboLE a b) (h₂ : comboLE b c) :
    comboLE a c := by
  unfold comboLE at *
  induction h₁ generalizing c with
  | nil => cases h₂; exact .nil
  | cons hab htail ih =>
    cases h₂ with
    | cons hbc htail' => exact .cons ⟨hab.1.trans hbc.1, innerLE_trans hab.2 hbc.2⟩ (ih htail')

/-- Looking up a key in two keywise-related association lists finds either
nothing in both or related values. -/
theorem dictGet_forall₂ {β γ : Type} {R : β → γ → Prop} {l₁ : List (String × β)}
    {l₂ : List (String × γ)}
    (h : List.Forall₂ (fun p q => p.1 = q.1 ∧ R p.2 q.2) l₁ l₂) (k : String) :
    (dictGet l₁ k = none ∧ dictGet l₂ k = none) ∨
      ∃ v₁ v₂, dictGet l₁ k = some v₁ ∧ dictGet l₂ k = some v₂ ∧ R v₁ v₂ := by
  induction h with
  | nil => exact Or.inl ⟨rfl, rfl⟩
  | @cons a b l₁ l₂ hab htail ih =>
    obtain ⟨ka, va⟩ := a
    obtain ⟨kb, vb⟩ := b
    obtain ⟨hk, hR⟩ := hab
    dsimp at hk
    subst hk
    by_cases hka : k = ka
    · exact Or.inr ⟨va, vb, by simp [dictGet, hka], by simp [dictGet, hka], hR⟩
    · simpa [dictGet, hka] using ih

theorem comboGet_mono {c' c : ActiveCombination} (h : comboLE c' c) (m b : String) :
    comboGet c' m b ≤ comboGet c m b := by
  rcases dictGet_forall₂ h m with ⟨h1, h2⟩ | ⟨i', i, h1, h2, hle⟩
  · simp [comboGet, h1, h2]
  · rcases dictGet_forall₂ hle b with ⟨g1, g2⟩ | ⟨w', w, g1, g2, hw⟩
    · simp [comboGet, h1, h2, g1, g2]
    · simpa [comboGet, h1, h2, g1, g2] using hw

theorem innerLE_dictSet (i : List (String × ℚ)) (b : String) (v cur : ℚ)
    (hg : dictGet i b = some cur) (hv : v ≤ cur) : innerLE (dictSet i b v) i := by
  induction i with
  | nil => simp [dictGet] at hg
  | cons hd tl ih =>
    obtain ⟨kb, w⟩ := hd
    by_cases hb : b = kb
    · subst hb
      rw [dictGet, if_pos rfl] at hg
      injection hg with hg
      subst hg
      have hset : dictSet ((b, w) :: tl) b v = (b, v) :: tl := by simp [dictSet]
      rw [hset]
      exact .cons ⟨rfl, hv⟩ (innerLE_refl tl)
    · rw [dictGet, if_neg hb] at hg
      simp only [dictSet, if_neg hb]
      exact .cons ⟨rfl, le_refl _⟩ (ih hg)

theorem comboLE_dictSet_inner (c : ActiveCombination) (m : String)
    (i' inner : List (String × ℚ)) (hgm : dictGet c m = some inner)
    (hle : innerLE i' inner) : comboLE (dictSet c m i') c := by
  induction c with
  | nil => simp [dictGet] at hgm
  | cons hd tl ih =>
    obtain ⟨km, iv⟩ := hd
    by_cases hm : m = km
    · subst hm
      rw [dictGet, if_pos rfl] at hgm
      injection hgm with hgm
      rw [← hgm] at hle
      have hset : dictSet ((m, iv) :: tl) m i' = (m, i') :: tl := by simp [dictSet]
      rw [hset]
      exact .cons ⟨rfl, hle⟩ (comboLE_refl tl)
    · rw [dictGet, if_neg hm] at hgm
      simp only [dictSet, if_neg hm]
      exact .cons ⟨rfl, innerLE_refl _⟩ (ih hgm)

theorem comboLE_comboSet_clamp (c : ActiveCombination) (m b : String) (v : ℚ)
    (inner : List (String × ℚ)) (cur : ℚ) (hgm : dictGet c m = some inner)
    (hgb : dictGet inner b = some cur) (hv : v ≤ cur) :
    comboLE (comboSet c m b v) c := by
  unfold comboSet
  rw [hgm]
  exact comboLE_dictSet_inner c m _ inner hgm
    (innerLE_dictSet inner b v cur hgb hv)

theorem clampStep_comboLE (c : ActiveCombination) (r : BlendshapeRule) :
    comboLE (clampStep c r) c := by
  unfold clampStep
  split
  · split
    · exact comboLE_refl c
    · next inner heqm =>
      split
      · exact comboLE_refl c
      · next cur heqb =>
        split
        · next hlt => exact comboLE_comboSet_clamp c _ _ _ inner cur heqm heqb (le_of_lt hlt)
        · exact comboLE_refl c
  · exact comboLE_refl c

theorem foldl_clampStep_comboLE (rs : List BlendshapeRule) (c : ActiveCombination) :
    comboLE (rs.foldl clampStep c) c := by
  induction rs generalizing c with
  | nil => exact comboLE_refl c
  | cons r rest ih =>
    rw [List.foldl_cons]
    exact comboLE_trans (ih (clampStep c r)) (clampStep_comboLE c r)

theorem clampGuard_mono {s' s : ActiveCombination} (r : BlendshapeRule)
    (hle : comboLE s' s) (hg : clampGuard s' r) : clampGuard s r := by
  obtain ⟨hs, i', cur', hgm', hgb', hlt'⟩ := hg
  refine ⟨lt_of_lt_of_le hs (comboGet_mono hle _ _), ?_⟩
  rcases dictGet_forall₂ hle r.target_module with ⟨h1, _⟩ | ⟨i₁, i₂, h1, h2, hinner⟩
  · rw [h1] at hgm'; cases hgm'
  · rw [h1] at hgm'
    injection hgm' with hgm'
    subst hgm'
    rcases dictGet_forall₂ hinner r.target_blendshape with ⟨g1, _⟩ | ⟨w₁, w₂, g1, g2, hw⟩
    · rw [g1] at hgb'; cases hgb'
    · rw [g1] at hgb'
      injection hgb' with hgb'
      subst hgb'
      exact ⟨i₂, w₂, h2, g2, lt_of_lt_of_le hlt' hw⟩

theorem clampStep_eq_of_not_guard (s : ActiveCombination) (r : BlendshapeRule)
    (h : ¬clampGuard s r) : clampStep s r = s := by
  unfold clampStep
  split
  · next hs =>
    split
    · rfl
    · next inner heqm =>
      split
      · rfl
      · next cur heqb =>
        split
        · next hlt => exact absurd ⟨hs, inner, cur, heqm, heqb, hlt⟩ h
        · rfl
  · rfl

theorem clampStep_eq_comboSet_of_guard (s : ActiveCombination) (r : BlendshapeRule)
    (hg : clampGuard s r) :
    clampStep s r = comboSet s r.target_module r.target_blendshape r.constraint_value := by
  obtain ⟨hs, i, cur, hgm, hgb, hlt⟩ := hg
  unfold clampStep
  rw [if_pos hs]
  simp only [hgm, hgb]
  rw [if_pos hlt]

theorem not_clampGuard_clampStep_self (s : ActiveCombination) (r : BlendshapeRule) :
    ¬clampGuard (clampStep s r) r := by
  by_cases hg : clampGuard s r
  · rw [clampStep_eq_comboSet_of_guard s r hg]
    rintro ⟨-, i', cur', hgm', hgb', hlt'⟩
    unfold comboSet at hgm'
    rw [dictGet_dictSet_self] at hgm'
    injection hgm' with hgm'
    subst hgm'
    rw [dictGet_dictSet_self] at hgb'
    injection hgb' with hgb'
    subst hgb'
    exact lt_irrefl _ hlt'
  · rw [clampStep_eq_of_not_guard s r hg]
    exact hg

theorem not_clampGuard_foldl (rs : List BlendshapeRule) (s : ActiveCombination)
    (r : BlendshapeRule) (h : ¬clampGuard s r) :
    ¬clampGuard (rs.foldl clampStep s) r :=
  fun hg => h (clampGuard_mono r (foldl_clampStep_comboLE rs s) hg)

theorem all_not_clampGuard_foldl (rs : List BlendshapeRule) (s : ActiveCombination) :
    ∀ r ∈ rs, ¬clampGuard (rs.foldl clampStep s) r := by
  induction rs generalizing s with
  | nil => intro r hr; cases hr
  | cons r₀ rest ih =>
    intro r hr
    rw [List.foldl_cons]
    rcases List.mem_cons.mp hr with hr0 | hrr
    · subst hr0
      exact not_clampGuard_foldl rest (clampStep s r) r (not_clampGuard_clampStep_self s r)
    · exact ih (clampStep s r₀) r hrr

theorem foldl_clampStep_eq_self (rs : List BlendshapeRule) (s : ActiveCombination)
    (h : ∀ r ∈ rs, ¬clampGuard s r) : rs.foldl clampStep s = s := by
  induction rs with
  | nil => rfl
  | cons r₀ rest ih =>
    rw [List.foldl_cons, clampStep_eq_of_not_guard s r₀ (h r₀ (by simp))]
    exact ih (fun r hr => h r (List.mem_cons_of_mem _ hr))

theorem get_dependency_rules_eq_nil {st : BlendshapeRulesManager}
    (hnd : noDependencyRules st) : st.get_dependency_rules = [] := by
  unfold BlendshapeRulesManager.get_dependency_rules
  rw [List.filter_eq_nil_iff]
  intro r hr
  simpa using hnd r hr

/-! ## C3: idempotence of the constraint applier -/

/-- C3: on a store without dependency rules the constraint applier is
idempotent — the weight limit pass only lowers weights, so after one pass every
rule's guard (source active and target above the limit) is off for good. The
unrestricted claim fails: see the chained-dependency counterexample. -/
theorem apply_constraints_idempotent_without_dependencies
    (st : BlendshapeRulesManager) (c : ActiveCombination) (hnd : noDependencyRules st) :
    st.apply_constraints_to_combination (st.apply_constraints_to_combination c) =
      st.apply_constraints_to_combination c := by
  unfold BlendshapeRulesManager.apply_constraints_to_combination
  rw [get_dependency_rules_eq_nil hnd]
  simp only [List.foldl_nil]
  exact foldl_clampStep_eq_self _ _ (all_not_clampGuard_foldl _ _)

/-- Witness for C3 on the crown weight limit store. -/
theorem apply_constraints_idempotent_without_dependencies_witness :
    noDependencyRules crownStore ∧
      crownStore.apply_constraints_to_combination
          (crownStore.apply_constraints_to_combination crownCombo) =
        crownStore.apply_constraints_to_combination crownCombo :=
  ⟨by decide!, apply_constraints_idempotent_without_dependencies
    crownStore crownCombo (by decide!)⟩

/-- C3 counterexample: with the chained dependencies `(m, b) → (m, c)` and
`(m, a) → (m, b)` on `{"m": {"a": 1.0}}`, the first Apply activates only `b`
(the rule for `c` runs before `b` is active), and a second Apply then also
activates `c`: Apply twice differs from Apply once. -/
theorem apply_constraints_not_idempotent_cex :
    chainStore.apply_constraints_to_combination
        (chainStore.apply_constraints_to_combination [("m", [("a", 1)])]) ≠
      chainStore.apply_constraints_to_combination [("m", [("a", 1)])] := by decide!

/-! ## C4: dependency rules under Apply -/

theorem comboGet_clampStep_ne (c : ActiveCombination) (r : BlendshapeRule) (m b : String)
    (h : ¬(r.target_module = m ∧ r.target_blendshape = b)) :
    comboGet (clampStep c r) m b = comboGet c m b := by
  by_cases hg : clampGuard c r
  · rw [clampStep_eq_comboSet_of_guard c r hg, comboGet_comboSet]
    rw [if_neg (fun hc => h ⟨hc.1.symm, hc.2.symm⟩)]
  · rw [clampStep_eq_of_not_guard c r hg]

theorem depStep_eq (c : ActiveCombination) (r : BlendshapeRule) :
    depStep c r =
      if 0 < comboGet c r.source_module r.source_blendshape then
        comboSet c r.target_module r.target_blendshape
          (comboGet c r.source_module r.source_blendshape * r.constraint_value)
      else c := rfl

theorem comboGet_depStep_ne (c : ActiveCombination) (r : BlendshapeRule) (m b : String)
    (h : ¬(r.target_module = m ∧ r.target_blendshape = b)) :
    comboGet (depStep c r) m b = comboGet c m b := by
  rw [depStep_eq]
  split
  · rw [comboGet_comboSet, if_neg (fun hc => h ⟨hc.1.symm, hc.2.symm⟩)]
  · rfl

theorem comboGet_depStep_self (c : ActiveCombination) (r : BlendshapeRule)
    (hs : 0 < comboGet c r.source_module r.source_blendshape) :
    comboGet (depStep c r) r.target_module r.target_blendshape =
      comboGet c r.source_module r.source_blendshape * r.constraint_value := by
  rw [depStep_eq, if_pos hs, comboGet_comboSet, if_pos ⟨rfl, rfl⟩]

theorem comboGet_foldl_clampStep_ne (rs : List BlendshapeRule) (c : ActiveCombination)
    (m b : String) (h : ∀ r ∈ rs, ¬(r.target_module = m ∧ r.target_blendshape = b)) :
    comboGet (rs.foldl clampStep c) m b = comboGet c m b := by
  induction rs generalizing c with
  | nil => rfl
  | cons r₀ rest ih =>
    rw [List.foldl_cons, ih (clampStep c r₀) (fun r hr => h r (List.mem_cons_of_mem _ hr)),
      comboGet_clampStep_ne c r₀ m b (h r₀ (by simp))]

/-- Through the dependency pass: if no rule of the list writes to the source
pair, at most the distinguished rule `r` writes to the target pair, and `r` is
in the list (or the target already holds `w * k`), the target ends at exactly
`w * k`, `w` being the source weight on entry (which the pass preserves). -/
theorem comboGet_foldl_depStep (ds : List BlendshapeRule) (s : ActiveCombination)
    (r : BlendshapeRule) (w : ℚ) (hw : 0 < w)
    (hsrc : comboGet s r.source_module r.source_blendshape = w)
    (hnosrc : ∀ d ∈ ds,
      ¬(d.target_module = r.source_module ∧ d.target_blendshape = r.source_blendshape))
    (htgt : ∀ d ∈ ds,
      (d.target_module = r.target_module ∧ d.target_blendshape = r.target_blendshape) → d = r)
    (hstart : r ∈ ds ∨
      comboGet s r.target_module r.target_blendshape = w * r.constraint_value) :
    comboGet (ds.foldl depStep s) r.target_module r.target_blendshape =
      w * r.constraint_value := by
  induction ds generalizing s with
  | nil =>
    rcases hstart with hin | htg
    · cases hin
    · exact htg
  | cons d rest ih =>
    rw [List.foldl_cons]
    have hsrc' : comboGet (depStep s d) r.source_module r.source_blendshape = w := by
      rw [comboGet_depStep_ne s d _ _ (hnosrc d (by simp))]
      exact hsrc
    by_cases hd : d = r
    · subst hd
      refine ih (depStep s d) hsrc' (fun x hx => hnosrc x (List.mem_cons_of_mem _ hx))
        (fun x hx => htgt x (List.mem_cons_of_mem _ hx)) (Or.inr ?_)
      rw [comboGet_depStep_self s d (by rw [hsrc]; exact hw), hsrc]
    · have hdnt : ¬(d.target_module = r.target_module ∧
          d.target_blendshape = r.target_blendshape) :=
        fun hc => hd (htgt d (by simp) hc)
      refine ih (depStep s d) hsrc' (fun x hx => hnosrc x (List.mem_cons_of_mem _ hx))
        (fun x hx => htgt x (List.mem_cons_of_mem _ hx)) ?_
      rcases hstart with hin | htg
      · rcases List.mem_cons.mp hin with hin0 | hinr
        · exact absurd hin0.symm hd
        · exact Or.inl hinr
      · refine Or.inr ?_
        rw [comboGet_depStep_ne s d _ _ hdnt]
        exact htg

/-- C4 (amended): for a dependency rule `r` with constraint_value `k` whose
source pair is written by no rule of the store and whose target pair is
written by no rule other than `r`, Apply sets the target weight to exactly
`w * k`, `w` being the source weight of the input combination (creating the
target entry when absent, and regardless of the target weight before Apply).
The original claim, which does not protect the source pair, fails: see the
clamped-source counterexample. -/
theorem dependency_sets_target_weight
    (st : BlendshapeRulesManager) (c : ActiveCombination) (r : BlendshapeRule)
    (hr : r ∈ st.ruleValues) (hty : r.rule_type = ConstraintType.DEPENDENCY)
    (hw : 0 < comboGet c r.source_module r.source_blendshape)
    (hnotgt : ∀ d ∈ st.ruleValues,
      (d.target_module = r.target_module ∧ d.target_blendshape = r.target_blendshape) →
        d = r)
    (hnosrc : ∀ d ∈ st.ruleValues,
      ¬(d.target_module = r.source_module ∧ d.target_blendshape = r.source_blendshape)) :
    comboGet (st.apply_constraints_to_combination c) r.target_module r.target_blendshape =
      comboGet c r.source_module r.source_blendshape * r.constraint_value := by
  unfold BlendshapeRulesManager.apply_constraints_to_combination
  have hsub₁ : ∀ d ∈ st.get_weight_limit_rules, d ∈ st.ruleValues :=
    fun d hd => List.mem_of_mem_filter hd
  have hsub₂ : ∀ d ∈ st.get_dependency_rules, d ∈ st.ruleValues :=
    fun d hd => List.mem_of_mem_filter hd
  have hsrc1 : comboGet (st.get_weight_limit_rules.foldl clampStep c)
      r.source_module r.source_blendshape =
      comboGet c r.source_module r.source_blendshape :=
    comboGet_foldl_clampStep_ne _ _ _ _ (fun d hd => hnosrc d (hsub₁ d hd))
  have hrdep : r ∈ st.get_dependency_rules := by
    unfold BlendshapeRulesManager.get_dependency_rules
    rw [List.mem_filter]
    exact ⟨hr, by simp [hty]⟩
  exact comboGet_foldl_depStep st.get_dependency_rules _ r
    (comboGet c r.source_module r.source_blendshape) hw hsrc1
    (fun d hd => hnosrc d (hsub₂ d hd))
    (fun d hd => hnotgt d (hsub₂ d hd))
    (Or.inl hrdep)

/-- Witness for C4 at the tail scenario: `(tail, swish) → (tail, flip)` of
strength `0.3` on `{"tail": {"swish": 0.8}}` puts `tail.flip` at exactly
`0.24`, creating the `flip` entry. -/
theorem dependency_sets_target_weight_witness :
    comboGet (tailStore.apply_constraints_to_combination tailCombo) "tail" "flip" =
      24/100 :=
  (dependency_sets_target_weight tailStore tailCombo tailRule
    (by decide!) (by decide!) (by decide!) (by decide!) (by decide!)).trans (by decide!)

/-- C4 counterexample: the claim constrains only rules affecting the target,
but a weight limit rule `(m, x) → (m, s)` of limit `0.5` clamps the
dependency's source `s` from `1.0` down to `0.5` before the dependency
`(m, s) → (m, t)` of strength `1` fires, so `t` ends at `0.5`, not at the
claimed `w * k = 1.0 * 1 = 1.0` — even though no other rule affects `t`. -/
theorem dependency_target_weight_cex :
    clampSourceDepRule ∈ clampSourceStore.ruleValues ∧
    clampSourceDepRule.rule_type = ConstraintType.DEPENDENCY ∧
    (clampSourceDepRule.source_module, clampSourceDepRule.source_blendshape) ≠
      (clampSourceDepRule.target_module, clampSourceDepRule.target_blendshape) ∧
    comboGet clampSourceCombo clampSourceDepRule.source_module
      clampSourceDepRule.source_blendshape = 1 ∧
    (∀ d ∈ clampSourceStore.ruleValues, d ≠ clampSourceDepRule →
      ¬(d.target_module = clampSourceDepRule.target_module ∧
        d.target_blendshape = clampSourceDepRule.target_blendshape)) ∧
    comboGet (clampSourceStore.apply_constraints_to_combination clampSourceCombo)
      clampSourceDepRule.target_module clampSourceDepRule.target_blendshape = 1/2 ∧
    (1/2 : ℚ) ≠ 1 * clampSourceDepRule.constraint_value := by decide!

/-! ## Validity is preserved by pointwise weight decrease -/

theorem exclusionViolationList_eq_nil (st : BlendshapeRulesManager) (c : ActiveCombination) :
    exclusionViolationList st c = [] ↔
      ∀ r ∈ st.get_exclusion_rules,
        ¬(0 < comboGet c r.source_module r.source_blendshape ∧
          0 < comboGet c r.target_module r.target_blendshape) := by
  unfold exclusionViolationList
  rw [List.filterMap_eq_nil_iff]
  constructor
  · intro h r hr hc
    have := h r hr
    rw [if_pos hc] at this
    cases this
  · intro h r hr
    rw [if_neg (h r hr)]

theorem weightLimitViolationList_eq_nil (st : BlendshapeRulesManager) (c : ActiveCombination) :
    weightLimitViolationList st c = [] ↔
      ∀ r ∈ st.get_weight_limit_rules,
        ¬(0 < comboGet c r.source_module r.source_blendshape ∧
          r.constraint_value < comboGet c r.target_module r.target_blendshape) := by
  unfold weightLimitViolationList
  rw [List.filterMap_eq_nil_iff]
  constructor
  · intro h r hr hc
    have := h r hr
    rw [if_pos hc] at this
    cases this
  · intro h r hr
    rw [if_neg (h r hr)]

theorem internalViolationList_eq_nil (st : BlendshapeRulesManager) (c : ActiveCombination) :
    internalViolationList st c = [] ↔
      ∀ p ∈ st.internal_exclusions, internalEntryViolations c p.1 p.2 = [] := by
  unfold internalViolationList
  rw [List.flatMap_eq_nil_iff]

theorem is_combination_valid_fst (st : BlendshapeRulesManager) (c : ActiveCombination) :
    (st.is_combination_valid c).1 = true ↔
      exclusionViolationList st c = [] ∧ weightLimitViolationList st c = [] ∧
        internalViolationList st c = [] := by
  show (exclusionViolationList st c ++ weightLimitViolationList st c ++
    internalViolationList st c).isEmpty = true ↔ _
  rw [List.isEmpty_iff, List.append_eq_nil, List.append_eq_nil]
  tauto

theorem activeNames_cons (p : String × ℚ) (tl : List (String × ℚ)) :
    activeNames (p :: tl) =
      if 0 < p.2 then p.1 :: activeNames tl else activeNames tl := by
  by_cases hp : 0 < p.2 <;> simp [activeNames, List.filter_cons, hp]

theorem activeNames_sublist {i' i : List (String × ℚ)} (h : innerLE i' i) :
    (activeNames i').Sublist (activeNames i) := by
  unfold innerLE at h
  induction h with
  | nil => exact List.Sublist.refl _
  | @cons p q tl' tl hpq htail ih =>
    rw [activeNames_cons, activeNames_cons]
    by_cases hp : 0 < p.2
    · rw [if_pos hp, if_pos (lt_of_lt_of_le hp hpq.2), hpq.1]
      exact ih.cons₂ q.1
    · rw [if_neg hp]
      by_cases hq : 0 < q.2
      · rw [if_pos hq]
        exact ih.cons q.1
      · rw [if_neg hq]
        exact ih

theorem internalEntryViolations_eq_nil_of_comboLE {c' c : ActiveCombination}
    (hle : comboLE c' c) (m : String) (excl : List String)
    (h : internalEntryViolations c m excl = []) :
    internalEntryViolations c' m excl = [] := by
  rcases dictGet_forall₂ hle m with ⟨h1, _⟩ | ⟨i', i, h1, h2, hinner⟩
  · exact internalEntryViolations_none c' m excl h1
  · rw [internalEntryViolations_some c m excl i h2] at h
    rw [internalEntryViolations_some c' m excl i' h1]
    rw [internalPairViolationList_eq_nil] at h ⊢
    calc (activeNames i').countP (fun b => excl.contains b)
        ≤ (activeNames i).countP (fun b => excl.contains b) :=
          (activeNames_sublist hinner).countP_le _
      _ ≤ 1 := h

/-- A combination that passes `is_combination_valid` still passes it after any
pointwise decrease of its weights that keeps its key structure (which is what
the weight limit pass does): every violation condition only ever asks for
weights to be large. -/
theorem is_combination_valid_of_comboLE (st : BlendshapeRulesManager)
    {c' c : ActiveCombination} (hle : comboLE c' c)
    (hv : (st.is_combination_valid c).1 = true) :
    (st.is_combination_valid c').1 = true := by
  rw [is_combination_valid_fst] at hv ⊢
  obtain ⟨he, hw, hi⟩ := hv
  refine ⟨?_, ?_, ?_⟩
  · rw [exclusionViolationList_eq_nil] at he ⊢
    intro r hr hc
    exact he r hr ⟨lt_of_lt_of_le hc.1 (comboGet_mono hle _ _),
      lt_of_lt_of_le hc.2 (comboGet_mono hle _ _)⟩
  · rw [weightLimitViolationList_eq_nil] at hw ⊢
    intro r hr hc
    exact hw r hr ⟨lt_of_lt_of_le hc.1 (comboGet_mono hle _ _),
      lt_of_lt_of_le hc.2 (comboGet_mono hle _ _)⟩
  · rw [internalViolationList_eq_nil] at hi ⊢
    intro p hp
    exact internalEntryViolations_eq_nil_of_comboLE hle p.1 p.2 (hi p hp)

/-! ## C1: the combination generator -/

theorem generateFromCandidates_cons (self : BlendshapeRulesManager)
    (cand : List (String × String)) (rest : List (List (String × String)))
    (maxC : Nat) (acc : List ActiveCombination) :
    generateFromCandidates self (cand :: rest) maxC acc =
      if maxC ≤ acc.length then acc
      else if (self.is_combination_valid (buildCombination cand)).1 then
        generateFromCandidates self rest maxC
          (acc ++ [self.apply_constraints_to_combination (buildCombination cand)])
      else generateFromCandidates self rest maxC acc := rfl

theorem generateFromCandidates_length (self : BlendshapeRulesManager)
    (cands : List (List (String × String))) (maxC : Nat) (acc : List ActiveCombination)
    (h : acc.length ≤ maxC) :
    (generateFromCandidates self cands maxC acc).length ≤ maxC := by
  induction cands generalizing acc with
  | nil => exact h
  | cons cand rest ih =>
    rw [generateFromCandidates_cons]
    split
    · exact h
    · next hfull =>
      split
      · refine ih _ ?_
        rw [List.length_append, List.length_singleton]
        omega
      · exact ih _ h

theorem generateBySizes_length (self : BlendshapeRulesManager)
    (all_blendshapes : List (String × String)) (sizes : List Nat) (maxC : Nat)
    (acc : List ActiveCombination) (h : acc.length ≤ maxC) :
    (generateBySizes self all_blendshapes sizes maxC acc).length ≤ maxC := by
  induction sizes generalizing acc with
  | nil => exact h
  | cons k rest ih =>
    show (if maxC ≤ acc.length then acc
      else generateBySizes self all_blendshapes rest maxC
        (generateFromCandidates self (combinationsList all_blendshapes k) maxC acc)).length ≤ maxC
    split
    · exact h
    · next hfull =>
      exact ih _ (generateFromCandidates_length self _ maxC acc h)

theorem generateFromCandidates_valid (self : BlendshapeRulesManager)
    (hnd : noDependencyRules self) (cands : List (List (String × String)))
    (maxC : Nat) (acc : List ActiveCombination)
    (hacc : ∀ x ∈ acc, (self.is_combination_valid x).1 = true) :
    ∀ x ∈ generateFromCandidates self cands maxC acc,
      (self.is_combination_valid x).1 = true := by
  induction cands generalizing acc with
  | nil => exact hacc
  | cons cand rest ih =>
    rw [generateFromCandidates_cons]
    split
    · exact hacc
    · split
      · next hvalid =>
        refine ih _ ?_
        intro x hx
        rcases List.mem_append.mp hx with hxa | hxn
        · exact hacc x hxa
        · rw [List.mem_singleton] at hxn
          subst hxn
          have happly : self.apply_constraints_to_combination (buildCombination cand) =
              self.get_weight_limit_rules.foldl clampStep (buildCombination cand) := by
            unfold BlendshapeRulesManager.apply_constraints_to_combination
            rw [get_dependency_rules_eq_nil hnd, List.foldl_nil]
          rw [happly]
          exact is_combination_valid_of_comboLE self
            (foldl_clampStep_comboLE _ _) hvalid
      · exact ih _ hacc

theorem generateBySizes_valid (self : BlendshapeRulesManager)
    (hnd : noDependencyRules self) (all_blendshapes : List (String × String))
    (sizes : List Nat) (maxC : Nat) (acc : List ActiveCombination)
    (hacc : ∀ x ∈ acc, (self.is_combination_valid x).1 = true) :
    ∀ x ∈ generateBySizes self all_blendshapes sizes maxC acc,
      (self.is_combination_valid x).1 = true := by
  induction sizes generalizing acc with
  | nil => exact hacc
  | cons k rest ih =>
    show ∀ x ∈ (if maxC ≤ acc.length then acc
      else generateBySizes self all_blendshapes rest maxC
        (generateFromCandidates self (combinationsList all_blendshapes k) maxC acc)), _
    split
    · exact hacc
    · exact ih _ (generateFromCandidates_valid self hnd _ maxC acc hacc)

/-- C1 (amended): `generate_combinations` never returns more than
`max_combinations` results, for every store and catalog; and when the store
contains no dependency rules, every returned combination itself passes
`is_combination_valid` against the same store. (The generator validates the
raw full-weight candidate and then appends its constraint-applied form; a
dependency rule can re-activate a blendshape that an exclusion forbids, which
breaks the unrestricted validity claim — see the counterexample.) -/
theorem generate_combinations_bounded_and_valid (st : BlendshapeRulesManager)
    (catalog : List (String × List String)) (N : Nat) :
    (CombinationGenerator.generate_combinations st catalog N).length ≤ N ∧
    (noDependencyRules st →
      ∀ c ∈ CombinationGenerator.generate_combinations st catalog N,
        (st.is_combination_valid c).1 = true) := by
  constructor
  · exact generateBySizes_length st _ _ N [] (Nat.zero_le N)
  · intro hnd c hc
    exact generateBySizes_valid st hnd _ _ N [] (fun x hx => absurd hx (List.not_mem_nil x))
      c hc

/-- Witness for C1 on the scalp exclusion store with a two-blendshape catalog
and cap 3. -/
theorem generate_combinations_bounded_and_valid_witness :
    (CombinationGenerator.generate_combinations scalpStore
        [("scalp", ["smile", "frown"])] 3).length ≤ 3 ∧
    ∀ c ∈ CombinationGenerator.generate_combinations scalpStore
        [("scalp", ["smile", "frown"])] 3,
      (scalpStore.is_combination_valid c).1 = true :=
  ⟨(generate_combinations_bounded_and_valid scalpStore [("scalp", ["smile", "frown"])] 3).1,
    (generate_combinations_bounded_and_valid scalpStore
      [("scalp", ["smile", "frown"])] 3).2 (by decide!)⟩

/-- C1 counterexample: with the exclusion `(m, a) × (m, b)` and the dependency
`(m, a) → (m, b)` of strength 1, the catalog `{"m": ["a"]}` produces the
single candidate `{"m": {"a": 1.0}}`, which validates (b is inactive); the
constraint applier then activates `b` at weight 1, and the returned
combination violates the exclusion: it fails `is_combination_valid` against
the very store that generated it. -/
theorem generate_combinations_invalid_output_cex :
    (CombinationGenerator.generate_combinations exclDepStore [("m", ["a"])] 10).length = 1 ∧
    ∀ c ∈ CombinationGenerator.generate_combinations exclDepStore [("m", ["a"])] 10,
      (exclDepStore.is_combination_valid c).1 = false := by decide!
